import Mathlib

/-!
Verification of the signal detection and deduplication engine of the
`monitor` repository.  The Python source under `app/` is shallowly embedded:
prices, volumes and multipliers become `ℚ`; wall-clock UTC time becomes a
natural number of seconds since the epoch (the code only ever inspects whole
minutes and compares instants, so second resolution is faithful); candle
timestamps keep the source's millisecond unit as `ℤ`; Python dicts keyed by
alert keys become association lists.  Each embedded definition keeps the name
of the source function it translates.
-/

namespace Monitor

/-- One OHLCV candle (`app` data model): millisecond epoch timestamp plus
open/high/low/close/volume.  `open` is a Lean keyword, so the field is
`open_`. -/
structure Candle where
  timestamp : ℤ
  open_ : ℚ
  high : ℚ
  low : ℚ
  close : ℚ
  volume : ℚ
deriving DecidableEq, Repr, Inhabited

/-! ### Dictionary model

`alerted_states` in `app/state.py` is a Python dict from alert key to expiry
datetime; we model it as an association list `List (String × ℚ)` (expiry in
seconds since epoch, rational because fixed cooldowns can be half-minutes). -/

/-- Python `d[k]` lookup returning `none` when the key is absent (`dict.get`). -/
def dictGet (m : List (String × ℚ)) (k : String) : Option ℚ :=
  match m with
  | [] => none
  | (k', v) :: t => if k' = k then some v else dictGet t k

/-- Python `d[k] = v` assignment: drops any old binding of `k` and appends the new
one.  Python dicts keep one binding per key; for `dictGet` this is
observationally the same as in-place replacement. -/
def dictSet (m : List (String × ℚ)) (k : String) (v : ℚ) : List (String × ℚ) :=
  (m.filter (fun p => p.1 ≠ k)) ++ [(k, v)]

/-! ### `app/utils.py` -/

/-- Embedding of `timeframe_to_minutes` from `app/utils.py`: parse strings such as
`"15m"`, `"4h"`, `"1d"`, `"1w"`; anything unparsable yields `0`. -/
def timeframe_to_minutes (tf : String) : ℤ :=
  if tf.length < 2 then 0
  else
    match (tf.dropRight 1).toInt? with
    | none => 0
    | some num =>
      let unit := (tf.takeRight 1).toLower
      if unit = "m" then num
      else if unit = "h" then num * 60
      else if unit = "d" then num * 24 * 60
      else if unit = "w" then num * 7 * 24 * 60
      else 0

/-- Python `int(q)`: truncation toward zero. -/
def pyTrunc (q : ℚ) : ℤ :=
  if q < 0 then -(⌊-q⌋) else ⌊q⌋

/-- Embedding of `calculate_cooldown_time` from `app/utils.py`.  `now` is the wall-clock
UTC instant in whole seconds since the epoch (the source reads
`datetime.now(timezone.utc)` here; we pass the clock explicitly).  `minutes`
is rational because callers multiply the timeframe length by fractional
cooldown multipliers.  Returns the expiry instant in seconds. -/
def calculate_cooldown_time (now : ℕ) (minutes : ℚ) (align_to_period_end : Bool := true) : ℚ :=
  if ¬ align_to_period_end then
    if minutes ≤ 0 then (now : ℚ) + 60
    else (now : ℚ) + minutes * 60
  else
    let p : ℤ := pyTrunc minutes
    if p ≤ 0 then (now : ℚ) + 60
    else
      let pn : ℕ := p.toNat
      if pn ≥ 1440 then
        -- (now + 1 day) with hour/minute/second zeroed: next UTC midnight
        ((((now + 86400) / 86400) * 86400 : ℕ) : ℚ)
      else
        let totalMinutesOfDay : ℕ := (now % 86400) / 60
        let startMinuteOfPeriod : ℕ := (totalMinutesOfDay / pn) * pn
        let periodStartTime : ℕ := (now / 86400) * 86400 + startMinuteOfPeriod * 60
        let periodEndTime : ℕ := periodStartTime + pn * 60
        if periodEndTime < now then ((periodEndTime + pn * 60 : ℕ) : ℚ)
        else ((periodEndTime : ℕ) : ℚ)

/-! ### `app/state.py` -/

/-- Embedding of `save_alert_states` from `app/state.py`: before writing, the map is
restricted to the entries whose expiry is strictly in the future; the pruned
map both replaces the in-memory `alerted_states` and is what gets written to
`cooldown_status.json` (the model returns that single pruned map). -/
def save_alert_states (now : ℕ) (m : List (String × ℚ)) : List (String × ℚ) :=
  m.filter (fun p => (now : ℚ) < p.2)

/-! ### `app/analysis/indicators.py` — Dynamic Parameter Engine -/

/-- One entry of a `stepped` tier table: `{'up_to_rank': n, 'multiplier': q}`
or `{'up_to_rank': n, 'count': q}`. -/
structure Tier where
  up_to_rank : ℕ
  multiplier : Option ℚ := none
  count : Option ℚ := none
deriving DecidableEq, Repr

/-- A parameter-family configuration dict (e.g. `dynamic_volume_multipliers`).
Optional Python keys become `Option` fields; a missing dict is the same as
`enabled = false` because `dyn_conf.get('enabled', False)` is then false. -/
structure DynConf where
  enabled : Bool := false
  method : Option String := none
  min_multiplier : Option ℚ := none
  max_multiplier : Option ℚ := none
  default_multiplier : Option ℚ := none
  min_count : Option ℚ := none
  max_count : Option ℚ := none
  default_count : Option ℚ := none
  apply_to_rank_n : Option ℕ := none
  rank_step_size : Option ℤ := none
  tiers : List Tier := []
deriving Repr

/-- The slice of the global `config` dict that the embedded functions read:
`market_settings.static_symbols`, `market_settings.dynamic_scan.top_n_for_signals`,
`strategy_params.dynamic_volume_multipliers` and
`strategy_params.level_breakout.volume_ma_period`. -/
structure Config where
  static_symbols : List String := []
  top_n_for_signals : Option ℕ := none
  dynamic_volume_multipliers : DynConf := {}
  volume_ma_period : Option ℕ := none

/-- Python `a or k` on an optional numeric `a`: `a` wins only when present
and truthy (non-zero). -/
def truthyOr (a : Option ℚ) (k : ℚ) : ℚ :=
  match a with
  | some x => if x = 0 then k else x
  | none => k

/-- Python `round` (banker's rounding, ties to even). -/
def pyRound (q : ℚ) : ℤ :=
  let f := ⌊q⌋
  let frac := q - f
  if frac < 1 / 2 then f
  else if 1 / 2 < frac then f + 1
  else if f % 2 = 0 then f else f + 1

/-- The `for tier in tiers` loop of the `stepped` branch: first tier with
`rank ≤ up_to_rank` wins, reading the value key chosen from the first tier;
no match falls through to the default. -/
def steppedLookup (tierIsMult : Bool) (rank : ℕ) (default_val : ℚ) : List Tier → ℚ
  | [] => default_val
  | t :: rest =>
    if rank ≤ t.up_to_rank then
      if tierIsMult then t.multiplier.getD default_val else t.count.getD default_val
    else steppedLookup tierIsMult rank default_val rest

/-- Stable insertion (descending by key, new element after equal keys when
building right-to-left — together with `sortDescBy` this reproduces Python's
stable `sorted(..., reverse=True)`). -/
def insDescBy {α : Type} {β : Type} [LinearOrder β] (f : α → β) (x : α) : List α → List α
  | [] => [x]
  | y :: t => if f y ≤ f x then x :: y :: t else y :: insDescBy f x t

/-- Stable sort, descending by key: Python `sorted(l, key=f, reverse=True)`. -/
def sortDescBy {α : Type} {β : Type} [LinearOrder β] (f : α → β) : List α → List α
  | [] => []
  | x :: t => insDescBy f x (sortDescBy f t)

/-- Stable insertion, ascending by key. -/
def insAscBy {α : Type} {β : Type} [LinearOrder β] (f : α → β) (x : α) : List α → List α
  | [] => [x]
  | y :: t => if f x ≤ f y then x :: y :: t else y :: insAscBy f x t

/-- Stable sort, ascending by key: Python `sorted(l, key=f)`. -/
def sortAscBy {α : Type} {β : Type} [LinearOrder β] (f : α → β) : List α → List α
  | [] => []
  | x :: t => insAscBy f x (sortAscBy f t)

/-- Embedding of `_calculate_dynamic_value` from `app/analysis/indicators.py`.  The module
global `cached_top_symbols` is passed explicitly.  Values that the source
keeps as Python ints inside dicts are modelled in `ℚ`; the count family's
`int(round(...))` becomes `pyRound` cast back to `ℚ`. -/
def _calculate_dynamic_value (symbol : String) (dyn_conf : DynConf) (fallback_value : ℚ)
    (config : Config) (cached_top_symbols : List String) : ℚ :=
  if ¬ dyn_conf.enabled then fallback_value
  else
    match cached_top_symbols.indexOf? symbol with
    | none =>
      -- `list.index` raised: `default_multiplier or default_count or fallback`
      truthyOr dyn_conf.default_multiplier (truthyOr dyn_conf.default_count fallback_value)
    | some idx =>
      let rank : ℕ := idx + 1
      let method := dyn_conf.method.getD "linear"
      let minIsMult := dyn_conf.min_multiplier.isSome
      let maxIsMult := dyn_conf.max_multiplier.isSome
      let defIsMult := dyn_conf.default_multiplier.isSome
      let min_val : ℚ :=
        if minIsMult then dyn_conf.min_multiplier.getD fallback_value
        else dyn_conf.min_count.getD fallback_value
      let max_val : ℚ :=
        if maxIsMult then dyn_conf.max_multiplier.getD (min_val * 2)
        else dyn_conf.max_count.getD (min_val * 2)
      let default_val : ℚ :=
        if defIsMult then dyn_conf.default_multiplier.getD max_val
        else dyn_conf.default_count.getD max_val
      -- `'count' in min_val_key`
      let isCountFamily := ¬ minIsMult
      let clampRound (value : ℚ) : ℚ :=
        if isCountFamily then ((pyRound (max min_val (min value max_val)) : ℤ) : ℚ)
        else max min_val (min value max_val)
      if method = "linear" ∨ method = "linear_stepped" then
        let dynamic_top_n := config.top_n_for_signals.getD 100
        let total_ranks_applied := min cached_top_symbols.length dynamic_top_n
        if rank > total_ranks_applied then default_val
        else if method = "linear" then
          if total_ranks_applied ≤ 1 then min_val
          else
            let slope := (max_val - min_val) / ((total_ranks_applied : ℚ) - 1)
            clampRound (min_val + ((rank : ℚ) - 1) * slope)
        else
          let step_size := dyn_conf.rank_step_size.getD 10
          if step_size ≤ 0 then min_val
          else
            let s := step_size.toNat
            let num_steps := (total_ranks_applied + s - 1) / s  -- math.ceil
            if num_steps ≤ 1 then min_val
            else
              let increment_per_step := (max_val - min_val) / ((num_steps : ℚ) - 1)
              let current_step_index := (rank - 1) / s          -- math.floor
              clampRound (min_val + (current_step_index : ℚ) * increment_per_step)
      else
        let total_ranks_applied := dyn_conf.apply_to_rank_n.getD 100
        if rank > total_ranks_applied then default_val
        else if method = "stepped" then
          let tiers := sortAscBy (fun t => t.up_to_rank) dyn_conf.tiers
          match tiers with
          | [] => default_val
          | t0 :: _ => steppedLookup t0.multiplier.isSome rank default_val tiers
        else fallback_value

/-- Value of `default_val` as computed inside `_calculate_dynamic_value`
(`indicators.py` lines 26-32): the configured `default_multiplier` or
`default_count` (the key family chosen exactly as for min/max), falling back
to `max_val`, which itself falls back through `min_val * 2` and the
fallback value. -/
def dynDefaultVal (dyn_conf : DynConf) (fallback_value : ℚ) : ℚ :=
  let min_val : ℚ :=
    if dyn_conf.min_multiplier.isSome then dyn_conf.min_multiplier.getD fallback_value
    else dyn_conf.min_count.getD fallback_value
  let max_val : ℚ :=
    if dyn_conf.max_multiplier.isSome then dyn_conf.max_multiplier.getD (min_val * 2)
    else dyn_conf.max_count.getD (min_val * 2)
  if dyn_conf.default_multiplier.isSome then dyn_conf.default_multiplier.getD max_val
  else dyn_conf.default_count.getD max_val

/-- Embedding of `get_dynamic_volume_multiplier` from `app/analysis/indicators.py`. -/
def get_dynamic_volume_multiplier (symbol : String) (config : Config)
    (fallback_multiplier : ℚ) (cached_top_symbols : List String) : ℚ :=
  _calculate_dynamic_value symbol config.dynamic_volume_multipliers fallback_multiplier
    config cached_top_symbols

/-- Evaluation of `volume_ma = volume.rolling(p).mean().shift(1)` evaluated at the last row
of a series of length `≥ p + 1`: the mean of the `p` volumes preceding the
last bar. -/
def volumeMaLast (vols : List ℚ) (p : ℕ) : ℚ :=
  (((vols.drop (vols.length - 1 - p)).take p).sum) / (p : ℚ)

/-- The elapsed-time ratio of `is_realtime_volume_over`:
`min(max(minutes_elapsed / tf_minutes, 0.05), 1.0)` for a positive timeframe,
`min(1.0, 1.0)` otherwise. -/
def realtimeTimeFrac (minutes_elapsed : ℚ) (tf_minutes : ℤ) : ℚ :=
  let r := if 0 < tf_minutes then max (minutes_elapsed / (tf_minutes : ℚ)) (1 / 20) else 1
  min r 1

/-- Embedding of `is_realtime_volume_over` from `app/analysis/indicators.py`, reduced to
the boolean the emission pipeline branches on (the returned text and ratio
are presentation only).  `now` is the wall clock in seconds since epoch;
candle timestamps are in milliseconds. -/
def is_realtime_volume_over (candles : List Candle) (now : ℕ) (tf_minutes : ℤ)
    (volume_ma_period : ℕ) (multiplier : ℚ) : Bool :=
  if candles.length < volume_ma_period + 1 then false
  else
    let current := candles.getLastD default
    let vol_ma := volumeMaLast (candles.map (·.volume)) volume_ma_period
    let minutes_elapsed := ((now : ℚ) - (current.timestamp : ℚ) / 1000) / 60
    let dynamic_baseline := vol_ma * realtimeTimeFrac minutes_elapsed tf_minutes
    current.volume > dynamic_baseline * multiplier

/-! ### `app/analysis/levels.py` — zone merging -/

/-- A price-interest zone: cluster level plus touch-count strength. -/
structure Zone where
  level : ℚ
  strength : ℕ
deriving DecidableEq, Repr

/-- The accept/reject loop of `_merge_close_levels`: walk the
strength-descending list, rejecting any zone whose level lies strictly within
`min_sep` of an already accepted zone. -/
def greedyAccept (min_sep : ℚ) : List Zone → List Zone → List Zone
  | acc, [] => acc
  | acc, z :: rest =>
    if acc.any (fun e => |z.level - e.level| < min_sep) then greedyAccept min_sep acc rest
    else greedyAccept min_sep (acc ++ [z]) rest

/-- Embedding of `_merge_close_levels` from `app/analysis/levels.py`: sort by strength
descending, greedily keep zones at pairwise distance `≥ min_separation`,
finally sort the survivors by level descending. -/
def _merge_close_levels (zones : List Zone) (min_separation : ℚ) : List Zone :=
  let sorted_zones := sortDescBy (fun z => z.strength) zones
  let final_zones := greedyAccept min_separation [] sorted_zones
  sortDescBy (fun z => z.level) final_zones

/-! ### `app/analysis/strategies.py` — emission pipeline -/

/-- The fields of a `signal_info` dict that `_prepare_and_send_notification`
branches on.  Template/title fields only shape the rendered message and are
omitted.  Fields read through `.get(key, default)` carry the call-site
default directly. -/
structure SignalInfo where
  alert_key : String
  volume_must_confirm : Bool := false
  exempt_static_on_volume : Bool := false
  fallback_multiplier : ℚ := 3 / 2
  /-- Value of `signal_info.get('cooldown_logic') == 'align_to_period_end'`. -/
  cooldown_logic_align : Bool := false
  cooldown_mult : ℚ := 1

/-- Outcome of one `_prepare_and_send_notification` call: the in-memory
cooldown map afterwards, whether `send_alert` enqueued a notification, and
the map written by `save_alert_states` (if it ran). -/
structure PrepareResult where
  store : List (String × ℚ)
  sent : Bool
  saved : Option (List (String × ℚ))
deriving Repr

/-- Evaluation of `symbol.split('/')[0].split(':')[0] in static_bases`. -/
def isStaticSymbol (config : Config) (symbol : String) : Bool :=
  let symbol_base := (((symbol.splitOn "/").headD "").splitOn ":").headD ""
  symbol_base ∈ config.static_symbols

/-- The effective volume-confirmation flag: a static (whitelisted) symbol
with the per-strategy exemption enabled drops the requirement. -/
def effectiveVolumeConfirm (config : Config) (symbol : String) (si : SignalInfo) : Bool :=
  if si.exempt_static_on_volume ∧ isStaticSymbol config symbol then false
  else si.volume_must_confirm

/-- The tail of `_prepare_and_send_notification` after the cooldown gate has
let the candidate through: volume re-check, send, record the new cooldown
expiry, persist via `save_alert_states`.  Note the fixed-multiple branch
(`calculate_cooldown_time(cooldown_minutes)` at `strategies.py:88`) omits
`align_to_period_end`, so `utils.py`'s default `True` applies: the program
aligns that expiry to the end of the `tf_minutes × cooldown_mult` bucket
too. -/
def prepareAfterCooldownGate (config : Config) (cached_top_symbols : List String)
    (symbol : String) (tf_minutes : ℤ) (candles : List Candle) (si : SignalInfo)
    (now : ℕ) (store : List (String × ℚ)) : PrepareResult :=
  let final_volume_confirm := effectiveVolumeConfirm config symbol si
  let dynamic_multiplier :=
    get_dynamic_volume_multiplier symbol config si.fallback_multiplier cached_top_symbols
  let is_vol_over :=
    is_realtime_volume_over candles now tf_minutes (config.volume_ma_period.getD 20)
      dynamic_multiplier
  if final_volume_confirm ∧ ¬ is_vol_over then ⟨store, false, none⟩
  else
    let expiry :=
      if si.cooldown_logic_align then
        calculate_cooldown_time now (tf_minutes : ℚ) true
      else
        calculate_cooldown_time now ((tf_minutes : ℚ) * si.cooldown_mult)
    let store1 := dictSet store si.alert_key expiry
    let store2 := save_alert_states now store1
    ⟨store2, true, some store2⟩

/-- Embedding of `_prepare_and_send_notification` from `app/analysis/strategies.py`.
`now` is the wall-clock UTC instant in seconds (the source samples the clock
again inside `calculate_cooldown_time`, `is_realtime_volume_over` and
`save_alert_states`; the model reads it once — instantaneous execution).
`store` is the module global `alerted_states`.  Steps, in source order:
cooldown gate, static-symbol exemption, live volume re-check, send, record
the new expiry, persist via `save_alert_states` (which prunes). -/
def _prepare_and_send_notification (config : Config) (cached_top_symbols : List String)
    (symbol : String) (timeframe : String) (candles : List Candle) (si : SignalInfo)
    (now : ℕ) (store : List (String × ℚ)) : PrepareResult :=
  let tf_minutes := timeframe_to_minutes timeframe
  match dictGet store si.alert_key with
  | some expiry =>
    if (now : ℚ) < expiry then ⟨store, false, none⟩
    else
      prepareAfterCooldownGate config cached_top_symbols symbol tf_minutes candles si now store
  | none =>
    prepareAfterCooldownGate config cached_top_symbols symbol tf_minutes candles si now store

/-! ### `app/analysis/order_blocks.py` -/

/-- Indexing shorthand: `x[i]` on a price series (all uses are in-bounds,
guarded by the callers). -/
def nthQ (x : List ℚ) (i : ℕ) : ℚ := x.getD i 0

/-- The inner plateau scan of SciPy `_local_maxima_1d`: starting at `j`,
advance while `j < n - 1` and `x[j]` still equals the left-edge value `v`. -/
def plateauEnd (x : List ℚ) (v : ℚ) : ℕ → ℕ → ℕ
  | j, 0 => j
  | j, fuel + 1 =>
    if j < x.length - 1 ∧ nthQ x j = v then plateauEnd x v (j + 1) fuel else j

/-- The main scan of SciPy `_local_maxima_1d`: a peak is an interior sample
strictly above its left neighbour whose plateau ends with a strict drop; the
reported index is the plateau midpoint. -/
def scanMaxima (x : List ℚ) : ℕ → ℕ → List ℕ
  | _, 0 => []
  | i, fuel + 1 =>
    if i < x.length - 1 then
      if nthQ x (i - 1) < nthQ x i then
        let j := plateauEnd x (nthQ x i) (i + 1) x.length
        if nthQ x j < nthQ x i then ((i + (j - 1)) / 2) :: scanMaxima x (j + 1) fuel
        else scanMaxima x (i + 1) fuel
      else scanMaxima x (i + 1) fuel
    else []

/-- All local maxima (with plateau midpoints) of a series. -/
def localMaxima (x : List ℚ) : List ℕ := scanMaxima x 1 x.length

/-- SciPy `_select_by_peak_distance`: walk the peaks from highest to lowest
priority, discarding any peak strictly closer than `dist` to one already
kept; the survivors are returned in ascending index order.  (SciPy's
`argsort` leaves the order of equal-height peaks unspecified; the model uses
the stable order.) -/
def selectByPeakDistance (x : List ℚ) (peaks : List ℕ) (dist : ℕ) : List ℕ :=
  let byPriority := sortDescBy (fun p => nthQ x p) peaks
  let kept := byPriority.foldl
    (fun acc p => if acc.any (fun q => ((p : ℤ) - q).natAbs < dist) then acc else acc ++ [p]) []
  sortAscBy id kept

/-- Embedding of `scipy.signal.find_peaks(x, distance=dist)`. -/
def find_peaks (x : List ℚ) (dist : ℕ) : List ℕ :=
  selectByPeakDistance x (localMaxima x) dist

/-- True range of bar `i` (`pandas_ta.true_range`): `high − low` for the
first bar, else the max of `high − low`, `|high − prev_close|`,
`|low − prev_close|`. -/
def trueRange (candles : List Candle) : ℕ → ℚ
  | 0 => (candles.getD 0 default).high - (candles.getD 0 default).low
  | i + 1 =>
    let c := candles.getD (i + 1) default
    let pc := candles.getD i default
    max (c.high - c.low) (max |c.high - pc.close| |c.low - pc.close|)

/-- Partial sum `Σ_{k ≤ i} w^(i−k) · f k` — the numerator of a pandas `ewm(...).mean()`
(adjust=True) at row `i`. -/
def ewmNum (f : ℕ → ℚ) (w : ℚ) : ℕ → ℚ
  | 0 => f 0
  | i + 1 => w * ewmNum f w i + f (i + 1)

/-- Partial sum `Σ_{j ≤ i} w^j` — the matching weight total. -/
def geomSum (w : ℚ) : ℕ → ℚ
  | 0 => 1
  | i + 1 => w * geomSum w i + 1

/-- Value of `ATRr_{length}` at row `i`: Wilder's RMA (`ewm(alpha=1/length,
min_periods=length).mean()`) of the true range; `none` for the initial rows
pandas leaves as NaN. -/
def atrAt (candles : List Candle) (length : ℕ) (i : ℕ) : Option ℚ :=
  if i + 1 < length then none
  else
    let w : ℚ := 1 - 1 / (length : ℚ)
    some (ewmNum (trueRange candles) w i / geomSum w i)

/-- First index `≥ start` whose close is strictly below `thr`
(`break_df[break_df['close'] < break_threshold].index[0]`). -/
def findBreakBelow (candles : List Candle) (start : ℕ) (thr : ℚ) : Option ℕ :=
  ((candles.drop start).findIdx? (fun c => c.close < thr)).map (· + start)

/-- First index `≥ start` whose close is strictly above `thr`. -/
def findBreakAbove (candles : List Candle) (start : ℕ) (thr : ℚ) : Option ℕ :=
  ((candles.drop start).findIdx? (fun c => thr < c.close)).map (· + start)

/-- Index of the last up-close candle in the inclusive slice `[lo, hi]`
(`up_candles.index[-1]`). -/
def lastUpCandleIdx (candles : List Candle) (lo hi : ℕ) : Option ℕ :=
  (((List.range (hi + 1 - lo)).map (· + lo)).filter
    (fun j => (candles.getD j default).open_ < (candles.getD j default).close)).getLast?

/-- Index of the last down-close candle in the inclusive slice `[lo, hi]`. -/
def lastDownCandleIdx (candles : List Candle) (lo hi : ℕ) : Option ℕ :=
  (((List.range (hi + 1 - lo)).map (· + lo)).filter
    (fun j => (candles.getD j default).close < (candles.getD j default).open_)).getLast?

/-- An order block: zone `[bottom, top]`, the source candle's timestamp, and
its polarity. -/
structure OrderBlock where
  top : ℚ
  bottom : ℚ
  timestamp : ℤ
  bullish : Bool
deriving DecidableEq, Repr

/-- Embedding of `expand_zone_if_needed` from `app/analysis/order_blocks.py` with
`MIN_THICKNESS_ATR_MULT = 0.5`: a zone thinner than `0.5 · ATR` is widened
symmetrically about its midpoint to exactly that minimum height. -/
def expand_zone_if_needed (top bottom atr_value : ℚ) : ℚ × ℚ :=
  let height := top - bottom
  let min_height := atr_value * (1 / 2)
  if height < min_height then
    let center := (top + bottom) / 2
    let half_min := min_height / 2
    (center + half_min, center - half_min)
  else (top, bottom)

/-- The bearish-order-block loop of `find_latest_order_blocks`: walk the
swing lows newest-first; for the first one with a usable ATR whose break
threshold gets breached and whose slice holds an up-close candle, build the
block from that candle (expanded to minimum thickness) and stop. -/
def searchBearishOB (candles : List Candle) (atrF : ℕ → Option ℚ) (atr_multiplier : ℚ) :
    List ℕ → Option OrderBlock
  | [] => none
  | idx :: rest =>
    if idx ≥ candles.length - 1 then searchBearishOB candles atrF atr_multiplier rest
    else
      match atrF idx with
      | none => searchBearishOB candles atrF atr_multiplier rest
      | some a =>
        if a = 0 then searchBearishOB candles atrF atr_multiplier rest
        else
          let swing_low_price := (candles.getD idx default).low
          match findBreakBelow candles (idx + 1) (swing_low_price - a * atr_multiplier) with
          | none => searchBearishOB candles atrF atr_multiplier rest
          | some break_idx =>
            match lastUpCandleIdx candles idx break_idx with
            | none => searchBearishOB candles atrF atr_multiplier rest
            | some ob_idx =>
              let c := candles.getD ob_idx default
              let tb := expand_zone_if_needed c.high c.low a
              some ⟨tb.1, tb.2, c.timestamp, false⟩

/-- The bullish-order-block loop: symmetric to `searchBearishOB`, using swing
highs, an upward break threshold and the last down-close candle. -/
def searchBullishOB (candles : List Candle) (atrF : ℕ → Option ℚ) (atr_multiplier : ℚ) :
    List ℕ → Option OrderBlock
  | [] => none
  | idx :: rest =>
    if idx ≥ candles.length - 1 then searchBullishOB candles atrF atr_multiplier rest
    else
      match atrF idx with
      | none => searchBullishOB candles atrF atr_multiplier rest
      | some a =>
        if a = 0 then searchBullishOB candles atrF atr_multiplier rest
        else
          let swing_high_price := (candles.getD idx default).high
          match findBreakAbove candles (idx + 1) (swing_high_price + a * atr_multiplier) with
          | none => searchBullishOB candles atrF atr_multiplier rest
          | some break_idx =>
            match lastDownCandleIdx candles idx break_idx with
            | none => searchBullishOB candles atrF atr_multiplier rest
            | some ob_idx =>
              let c := candles.getD ob_idx default
              let tb := expand_zone_if_needed c.high c.low a
              some ⟨tb.1, tb.2, c.timestamp, true⟩

/-- Embedding of `find_latest_order_blocks` from `app/analysis/order_blocks.py`: swing
highs/lows via `find_peaks` (lows on the negated series), a 14-period ATR,
then the newest-first searches; returns `(bullish, bearish)`.  (When the
series is too short for any ATR value, every swing is skipped and both
results are `none`, matching the source's missing-ATR-column early return.) -/
def find_latest_order_blocks (candles : List Candle) (swing_length : ℕ)
    (atr_multiplier : ℚ) : Option OrderBlock × Option OrderBlock :=
  if candles.length < swing_length * 2 + 2 then (none, none)
  else
    let swing_high_indices := find_peaks (candles.map (·.high)) swing_length
    let swing_low_indices := find_peaks ((candles.map (·.low)).map Neg.neg) swing_length
    let atrF := atrAt candles 14
    let bear := searchBearishOB candles atrF atr_multiplier swing_low_indices.reverse
    let bull := searchBullishOB candles atrF atr_multiplier swing_high_indices.reverse
    (bull, bear)

/-! ### `app/analysis/channels.py` — `detect_regression_channel`

`app/analysis/strategies.py` imports `detect_regression_channel` from
`app.analysis.channels`, but the source tree only ships
`detect_trend_channel` there; the imported function itself is absent, so it
is modelled from spec §4.1. -/

/-- First index attaining the maximum of a series (`np.argmax`). -/
def firstMaxIdx (l : List ℚ) : ℕ :=
  (l.foldl (fun (st : ℕ × ℚ × ℕ) v =>
    if st.2.1 < v then (st.2.2, v, st.2.2 + 1) else (st.1, st.2.1, st.2.2 + 1))
    (0, l.headD 0, 0)).1

/-- First index attaining the minimum of a series (`np.argmin`). -/
def firstMinIdx (l : List ℚ) : ℕ :=
  (l.foldl (fun (st : ℕ × ℚ × ℕ) v =>
    if v < st.2.1 then (st.2.2, v, st.2.2 + 1) else (st.1, st.2.1, st.2.2 + 1))
    (0, l.headD 0, 0)).1

/-- Modelled from the spec: within the last `lookback` bars, the position of
the window's minimum low and maximum high; whichever lies closer to the end
starts the trend segment and fixes its polarity (closer low ⇒ up-trend,
ties going to the low). -/
def channelSegment (candles : List Candle) (lookback : ℕ) : List Candle × Bool :=
  let window := candles.drop (candles.length - lookback)
  let hiPos := firstMaxIdx (window.map (·.high))
  let loPos := firstMinIdx (window.map (·.low))
  if hiPos ≤ loPos then (window.drop loPos, true) else (window.drop hiPos, false)

/-- Ordinary-least-squares slope of a series against its index. -/
def olsSlope (ys : List ℚ) : ℚ :=
  let n : ℚ := ys.length
  let xs := (List.range ys.length).map (fun i => (i : ℚ))
  let sx := xs.sum
  let sy := ys.sum
  let sxy := ((xs.zip ys).map (fun p => p.1 * p.2)).sum
  let sxx := (xs.map (fun x => x * x)).sum
  (n * sxy - sx * sy) / (n * sxx - sx * sx)

/-- Matching OLS intercept. -/
def olsIntercept (ys : List ℚ) : ℚ :=
  let n : ℚ := ys.length
  let sx := ((List.range ys.length).map (fun i => (i : ℚ))).sum
  (ys.sum - olsSlope ys * sx) / n

/-- Mean of the residual squares around the fitted line (σ² — `ℚ` has no
square root, so the band half-width `mult·σ` is carried as this variance). -/
def residVarOf (ys : List ℚ) : ℚ :=
  let b := olsSlope ys
  let a := olsIntercept ys
  ((((List.range ys.length).map (fun i => (i : ℚ))).zip ys).map
    (fun p => (p.2 - (a + b * p.1)) ^ 2)).sum / (ys.length : ℚ)

/-- Mean close price of a segment. -/
def meanClose (seg : List Candle) : ℚ :=
  ((seg.map (·.close)).sum) / (seg.length : ℚ)

/-- The fitted channel: slope, segment length, residual variance. -/
structure ChannelInfo where
  slope : ℚ
  trend_length : ℕ
  resid_var : ℚ
deriving DecidableEq, Repr

/-- Modelled from the spec (§4.1, the function is absent from `src`): slice
from the most recent extremum, discard short segments, fit OLS close-vs-index,
discard when `|slope|` is below `mean close × 0.0005` or the slope's sign
contradicts the chosen polarity; otherwise report the channel.  The band
series is `line ± multiplier·σ`, determined by `slope`, `olsIntercept` and
`resid_var`; the claims only concern the `none` guards, so the bands are not
materialised. -/
def detect_regression_channel (candles : List Candle) (lookback_period : ℕ)
    (min_trend_length : ℕ) (_std_dev_multiplier : ℚ) : Option ChannelInfo :=
  if candles.length < lookback_period then none
  else
    let seg := (channelSegment candles lookback_period).1
    let isUp := (channelSegment candles lookback_period).2
    if seg.length < min_trend_length then none
    else
      let slope := olsSlope (seg.map (·.close))
      if |slope| < meanClose seg * (5 / 10000) then none
      else if (isUp ∧ slope ≤ 0) ∨ (¬ isUp ∧ 0 ≤ slope) then none
      else some ⟨slope, seg.length, residVarOf (seg.map (·.close))⟩

/-! ## Shared lemmas -/

theorem nat_lt_div_succ_mul (t p : ℕ) (hp : 0 < p) : t < (t / p + 1) * p := by
  have h1 : p * (t / p) + t % p = t := Nat.div_add_mod t p
  have h2 : t % p < p := Nat.mod_lt t hp
  have h3 : (t / p + 1) * p = p * (t / p) + p := by ring
  omega

theorem intraday_now_lt_period_end (now p : ℕ) (hp : 0 < p) :
    now < (now / 86400) * 86400 + ((((now % 86400) / 60) / p) * p) * 60 + p * 60 := by
  have h0 : 86400 * (now / 86400) + now % 86400 = now := Nat.div_add_mod now 86400
  have h1 : (now % 86400) / 60 < (((now % 86400) / 60) / p + 1) * p :=
    nat_lt_div_succ_mul _ _ hp
  have h2 : now % 86400 < ((now % 86400) / 60 + 1) * 60 :=
    nat_lt_div_succ_mul _ 60 (by norm_num)
  have h3 : (((now % 86400) / 60) / p + 1) * p = (((now % 86400) / 60) / p) * p + p := by
    ring
  have h4 : ((now % 86400) / 60 + 1) * 60 = ((now % 86400) / 60) * 60 + 60 := by ring
  have h5 : (now % 86400) / 60 + 1 ≤ (((now % 86400) / 60) / p) * p + p := by omega
  have h6 : ((now % 86400) / 60 + 1) * 60 ≤ ((((now % 86400) / 60) / p) * p + p) * 60 :=
    Nat.mul_le_mul_right 60 h5
  have h7 : ((((now % 86400) / 60) / p) * p + p) * 60 =
      ((((now % 86400) / 60) / p) * p) * 60 + p * 60 := by ring
  omega

theorem cooldown_noalign_nonpos_eq (now : ℕ) (minutes : ℚ) (hm : minutes ≤ 0) :
    calculate_cooldown_time now minutes false = (now : ℚ) + 60 := by
  simp only [calculate_cooldown_time]
  rw [if_pos (by simp : ¬ (false = true)), if_pos hm]

theorem cooldown_noalign_eq (now : ℕ) (minutes : ℚ) (hm : ¬ minutes ≤ 0) :
    calculate_cooldown_time now minutes false = (now : ℚ) + minutes * 60 := by
  simp only [calculate_cooldown_time]
  rw [if_pos (by simp : ¬ (false = true)), if_neg hm]

theorem cooldown_align_nonpos_eq (now : ℕ) (minutes : ℚ) (hp : pyTrunc minutes ≤ 0) :
    calculate_cooldown_time now minutes true = (now : ℚ) + 60 := by
  simp only [calculate_cooldown_time]
  rw [if_neg (by simp : ¬ ¬ True), if_pos hp]

theorem cooldown_align_day_eq (now : ℕ) (minutes : ℚ) (hp : 0 < pyTrunc minutes)
    (hday : 1440 ≤ (pyTrunc minutes).toNat) :
    calculate_cooldown_time now minutes true = (((now / 86400 + 1) * 86400 : ℕ) : ℚ) := by
  simp only [calculate_cooldown_time]
  rw [if_neg (by simp : ¬ ¬ True), if_neg (by omega : ¬ pyTrunc minutes ≤ 0),
    if_pos (by omega : (pyTrunc minutes).toNat ≥ 1440)]
  have h1 : (now + 86400) / 86400 * 86400 = (now / 86400 + 1) * 86400 := by omega
  exact_mod_cast h1

theorem cooldown_align_intraday_eq (now : ℕ) (minutes : ℚ) (hp : 0 < pyTrunc minutes)
    (hday : (pyTrunc minutes).toNat < 1440) :
    calculate_cooldown_time now minutes true =
      ((now / 86400 * 86400 +
        now % 86400 / 60 / (pyTrunc minutes).toNat * (pyTrunc minutes).toNat * 60 +
        (pyTrunc minutes).toNat * 60 : ℕ) : ℚ) := by
  have hkey := intraday_now_lt_period_end now (pyTrunc minutes).toNat (by omega)
  simp only [calculate_cooldown_time]
  rw [if_neg (by simp : ¬ ¬ True), if_neg (by omega : ¬ pyTrunc minutes ≤ 0),
    if_neg (by omega : ¬ (pyTrunc minutes).toNat ≥ 1440), if_neg (Nat.not_lt.mpr hkey.le)]

theorem cooldown_time_lt (now : ℕ) (minutes : ℚ) (align : Bool) :
    (now : ℚ) < calculate_cooldown_time now minutes align := by
  cases align with
  | false =>
    by_cases hm : minutes ≤ 0
    · rw [cooldown_noalign_nonpos_eq now minutes hm]; linarith
    · rw [cooldown_noalign_eq now minutes hm]
      have h0 : 0 < minutes := lt_of_not_le hm
      nlinarith
  | true =>
    by_cases hp : pyTrunc minutes ≤ 0
    · rw [cooldown_align_nonpos_eq now minutes hp]; linarith
    · by_cases hday : 1440 ≤ (pyTrunc minutes).toNat
      · rw [cooldown_align_day_eq now minutes (by omega) hday]
        exact_mod_cast nat_lt_div_succ_mul now 86400 (by norm_num)
      · rw [cooldown_align_intraday_eq now minutes (by omega) (by omega)]
        exact_mod_cast intraday_now_lt_period_end now (pyTrunc minutes).toNat (by omega)

theorem calcDyn_linear_eq (conf : DynConf) (config : Config) (fb : ℚ) (cached : List String)
    (s : String) (k : ℕ) (mn mx : ℚ)
    (hen : conf.enabled = true)
    (hm : conf.method.getD "linear" = "linear")
    (hmin : conf.min_multiplier = some mn)
    (hmax : conf.max_multiplier = some mx)
    (hidx : cached.indexOf? s = some k)
    (hN2 : 2 ≤ min cached.length (config.top_n_for_signals.getD 100))
    (hk : k + 1 ≤ min cached.length (config.top_n_for_signals.getD 100)) :
    _calculate_dynamic_value s conf fb config cached =
      max mn (min (mn + (k : ℚ) *
        ((mx - mn) / (((min cached.length (config.top_n_for_signals.getD 100) : ℕ) : ℚ) - 1))) mx) := by
  unfold _calculate_dynamic_value
  rw [hen, hidx]
  simp only [hm, hmin, hmax, Option.isSome_some, Option.getD_some, if_true, not_true,
    ite_false, ite_true]
  rw [if_pos (Or.inl trivial)]
  rw [if_neg (by omega : ¬ k + 1 > min cached.length (config.top_n_for_signals.getD 100))]
  rw [if_neg (by omega : ¬ min cached.length (config.top_n_for_signals.getD 100) ≤ 1)]
  have hc : ((k + 1 : ℕ) : ℚ) - 1 = (k : ℚ) := by push_cast; ring
  rw [hc]

theorem insDescBy_perm {α β : Type} [LinearOrder β] (f : α → β) (x : α) (l : List α) :
    List.Perm (insDescBy f x l) (x :: l) := by
  induction l with
  | nil => simp [insDescBy]
  | cons y t ih =>
    rw [insDescBy]
    split_ifs with h
    · exact List.Perm.refl _
    · exact (ih.cons y).trans (List.Perm.swap x y t)

theorem sortDescBy_perm {α β : Type} [LinearOrder β] (f : α → β) (l : List α) :
    List.Perm (sortDescBy f l) l := by
  induction l with
  | nil => simp [sortDescBy]
  | cons x t ih =>
    rw [sortDescBy]
    exact (insDescBy_perm f x (sortDescBy f t)).trans (ih.cons x)

theorem insDescBy_pairwise {α β : Type} [LinearOrder β] (f : α → β) (x : α) (l : List α)
    (h : List.Pairwise (fun a b => f b ≤ f a) l) :
    List.Pairwise (fun a b => f b ≤ f a) (insDescBy f x l) := by
  induction l with
  | nil => simp [insDescBy]
  | cons y t ih =>
    rw [List.pairwise_cons] at h
    rw [insDescBy]
    split_ifs with hf
    · rw [List.pairwise_cons]
      constructor
      · intro z hz
        rcases List.mem_cons.mp hz with hz2 | hz2
        · rw [hz2]; exact hf
        · exact le_trans (h.1 z hz2) hf
      · exact List.pairwise_cons.mpr h
    · rw [List.pairwise_cons]
      constructor
      · intro z hz
        have hz2 : z ∈ x :: t := (insDescBy_perm f x t).mem_iff.mp hz
        rcases List.mem_cons.mp hz2 with hz3 | hz3
        · rw [hz3]; exact le_of_not_le hf
        · exact h.1 z hz3
      · exact ih h.2

theorem sortDescBy_pairwise {α β : Type} [LinearOrder β] (f : α → β) (l : List α) :
    List.Pairwise (fun a b => f b ≤ f a) (sortDescBy f l) := by
  induction l with
  | nil => simp [sortDescBy]
  | cons x t ih =>
    rw [sortDescBy]
    exact insDescBy_pairwise f x (sortDescBy f t) ih

theorem greedyAccept_subset (sep : ℚ) :
    ∀ (rest acc : List Zone), acc ⊆ greedyAccept sep acc rest := by
  intro rest
  induction rest with
  | nil => intro acc; rw [greedyAccept]; exact fun a ha => ha
  | cons z t ih =>
    intro acc
    rw [greedyAccept]
    split_ifs with hc
    · exact ih acc
    · exact List.Subset.trans (List.subset_append_left acc [z]) (ih (acc ++ [z]))

theorem greedyAccept_sep_pairwise (sep : ℚ) :
    ∀ (rest acc : List Zone),
      List.Pairwise (fun a b => sep ≤ |a.level - b.level|) acc →
      List.Pairwise (fun a b => sep ≤ |a.level - b.level|) (greedyAccept sep acc rest) := by
  intro rest
  induction rest with
  | nil => intro acc hacc; rw [greedyAccept]; exact hacc
  | cons z t ih =>
    intro acc hacc
    rw [greedyAccept]
    split_ifs with hc
    · exact ih acc hacc
    · apply ih
      rw [List.pairwise_append]
      refine ⟨hacc, List.pairwise_singleton _ _, ?_⟩
      intro a ha b hb
      rw [List.mem_singleton] at hb
      have hall : ∀ e ∈ acc, ¬ (|z.level - e.level| < sep) := by
        intro e he
        intro hlt
        apply hc
        rw [List.any_eq_true]
        exact ⟨e, he, decide_eq_true hlt⟩
      rw [hb, abs_sub_comm]
      exact not_lt.mp (hall a ha)

theorem greedyAccept_cover (sep : ℚ) :
    ∀ (rest acc : List Zone),
      (∀ e ∈ acc, ∀ z ∈ rest, z.strength ≤ e.strength) →
      List.Pairwise (fun a b => b.strength ≤ a.strength) rest →
      ∀ z ∈ rest, z ∉ greedyAccept sep acc rest →
        ∃ w ∈ greedyAccept sep acc rest, |z.level - w.level| < sep ∧ z.strength ≤ w.strength := by
  intro rest
  induction rest with
  | nil => intro acc _ _ z hz; exact absurd hz (List.not_mem_nil z)
  | cons z0 t ih =>
    intro acc hinv hpw z hz hnz
    rw [greedyAccept] at hnz ⊢
    rw [List.pairwise_cons] at hpw
    split_ifs at hnz ⊢ with hc
    · rcases List.mem_cons.mp hz with hz | hz
      · subst hz
        rw [List.any_eq_true] at hc
        obtain ⟨e, he, hlt⟩ := hc
        refine ⟨e, greedyAccept_subset sep t acc he, of_decide_eq_true hlt, ?_⟩
        exact hinv e he z (List.mem_cons_self _ _)
      · exact ih acc (fun e he y hy => hinv e he y (List.mem_cons_of_mem z0 hy)) hpw.2 z hz hnz
    · rcases List.mem_cons.mp hz with hz | hz
      · subst hz
        exact absurd (greedyAccept_subset sep t (acc ++ [z]) (by simp)) hnz
      · refine ih (acc ++ [z0]) ?_ hpw.2 z hz hnz
        intro e he y hy
        rcases List.mem_append.mp he with he | he
        · exact hinv e he y (List.mem_cons_of_mem z0 hy)
        · rw [List.mem_singleton] at he
          subst he
          exact hpw.1 y hy

theorem dictGet_keyless_append (l : List (String × ℚ)) (k : String) (v : ℚ)
    (h : ∀ p ∈ l, p.1 ≠ k) :
    dictGet (l ++ [(k, v)]) k = some v := by
  induction l with
  | nil => simp [dictGet]
  | cons p t ih =>
    rw [List.cons_append, dictGet]
    rw [if_neg (h p (List.mem_cons_self _ _))]
    exact ih (fun q hq => h q (List.mem_cons_of_mem p hq))

theorem dictGet_save_dictSet (m : List (String × ℚ)) (k : String) (v : ℚ) (now : ℕ)
    (hv : (now : ℚ) < v) :
    dictGet (save_alert_states now (dictSet m k v)) k = some v := by
  unfold save_alert_states dictSet
  rw [List.filter_append]
  have h2 : List.filter (fun p => decide ((now : ℚ) < p.2)) [(k, v)] = [(k, v)] := by
    simp [hv]
  rw [h2]
  apply dictGet_keyless_append
  intro p hp
  have h3 := (List.mem_filter.mp hp).1
  exact of_decide_eq_true (List.mem_filter.mp h3).2

theorem prepareAfterCooldownGate_success (config : Config) (cached : List String)
    (symbol : String) (tf : ℤ) (candles : List Candle) (si : SignalInfo)
    (now : ℕ) (store : List (String × ℚ))
    (hgate : effectiveVolumeConfirm config symbol si = true →
      is_realtime_volume_over candles now tf (config.volume_ma_period.getD 20)
        (get_dynamic_volume_multiplier symbol config si.fallback_multiplier cached) = true) :
    (prepareAfterCooldownGate config cached symbol tf candles si now store).sent = true ∧
    (∃ e, dictGet (prepareAfterCooldownGate config cached symbol tf candles si now store).store
        si.alert_key = some e ∧ (now : ℚ) < e) ∧
    (prepareAfterCooldownGate config cached symbol tf candles si now store).saved =
      some (prepareAfterCooldownGate config cached symbol tf candles si now store).store := by
  simp only [prepareAfterCooldownGate]
  rw [if_neg (by
    rintro ⟨h1, h2⟩
    exact h2 (hgate h1))]
  refine ⟨rfl, ⟨?_, ?_, ?_⟩, rfl⟩
  · exact (if si.cooldown_logic_align = true then calculate_cooldown_time now (tf : ℚ) true
      else calculate_cooldown_time now ((tf : ℚ) * si.cooldown_mult))
  · exact dictGet_save_dictSet store si.alert_key _ now (by
      split_ifs with hb
      · exact cooldown_time_lt now (tf : ℚ) true
      · exact cooldown_time_lt now ((tf : ℚ) * si.cooldown_mult) true)
  · split_ifs with hb
    · exact cooldown_time_lt now (tf : ℚ) true
    · exact cooldown_time_lt now ((tf : ℚ) * si.cooldown_mult) true

theorem prepareAfterCooldownGate_drop (config : Config) (cached : List String)
    (symbol : String) (tf : ℤ) (candles : List Candle) (si : SignalInfo)
    (now : ℕ) (store : List (String × ℚ))
    (hconf : effectiveVolumeConfirm config symbol si = true)
    (hvol : is_realtime_volume_over candles now tf (config.volume_ma_period.getD 20)
        (get_dynamic_volume_multiplier symbol config si.fallback_multiplier cached) = false) :
    prepareAfterCooldownGate config cached symbol tf candles si now store =
      ⟨store, false, none⟩ := by
  simp only [prepareAfterCooldownGate]
  rw [if_pos ⟨hconf, by simp [hvol]⟩]

/-! ## Claim theorems -/

/-- Claim C2: for the Dynamic Parameter Engine's enabled `linear` method over
the multiplier family, with applied rank count `N = min(len(cached), top_n)
≥ 2` and ranks `r = k + 1` within `[1, N]`: the output is monotone
non-decreasing in the rank when `min ≤ max` (constant, hence non-increasing,
when `max < min`), equals `min` at rank 1 and `max` at rank `N`, and always
lies in `[min, max]`. -/
theorem C2_linear_monotone_endpoints
    (conf : DynConf) (config : Config) (fb : ℚ) (cached : List String)
    (s1 s2 : String) (k1 k2 : ℕ) (mn mx : ℚ)
    (hen : conf.enabled = true)
    (hm : conf.method.getD "linear" = "linear")
    (hmin : conf.min_multiplier = some mn)
    (hmax : conf.max_multiplier = some mx)
    (hidx1 : cached.indexOf? s1 = some k1)
    (hidx2 : cached.indexOf? s2 = some k2)
    (hN2 : 2 ≤ min cached.length (config.top_n_for_signals.getD 100))
    (hk1 : k1 + 1 ≤ min cached.length (config.top_n_for_signals.getD 100))
    (hk2 : k2 + 1 ≤ min cached.length (config.top_n_for_signals.getD 100)) :
    (mn ≤ mx → k1 ≤ k2 →
      _calculate_dynamic_value s1 conf fb config cached ≤
        _calculate_dynamic_value s2 conf fb config cached) ∧
    (k1 = 0 → mn ≤ mx → _calculate_dynamic_value s1 conf fb config cached = mn) ∧
    (k1 + 1 = min cached.length (config.top_n_for_signals.getD 100) → mn ≤ mx →
      _calculate_dynamic_value s1 conf fb config cached = mx) ∧
    (mn ≤ mx →
      mn ≤ _calculate_dynamic_value s1 conf fb config cached ∧
      _calculate_dynamic_value s1 conf fb config cached ≤ mx) ∧
    (mx < mn →
      _calculate_dynamic_value s1 conf fb config cached = mn ∧
      _calculate_dynamic_value s2 conf fb config cached ≤
        _calculate_dynamic_value s1 conf fb config cached) := by
  have e1 := calcDyn_linear_eq conf config fb cached s1 k1 mn mx hen hm hmin hmax hidx1 hN2 hk1
  have e2 := calcDyn_linear_eq conf config fb cached s2 k2 mn mx hen hm hmin hmax hidx2 hN2 hk2
  have hNq : (2 : ℚ) ≤ ((min cached.length (config.top_n_for_signals.getD 100) : ℕ) : ℚ) := by
    exact_mod_cast hN2
  have hden : (0 : ℚ) <
      ((min cached.length (config.top_n_for_signals.getD 100) : ℕ) : ℚ) - 1 := by linarith
  refine ⟨?_, ?_, ?_, ?_, ?_⟩
  · intro hle hk
    rw [e1, e2]
    have hD : 0 ≤ (mx - mn) /
        (((min cached.length (config.top_n_for_signals.getD 100) : ℕ) : ℚ) - 1) :=
      div_nonneg (by linarith) (le_of_lt hden)
    have hkq : (k1 : ℚ) ≤ (k2 : ℚ) := by exact_mod_cast hk
    exact max_le_max le_rfl (min_le_min (by nlinarith) le_rfl)
  · intro hk0 hle
    subst hk0
    rw [e1]
    simp [min_eq_left hle]
  · intro hkN hle
    rw [e1]
    have h0 : (k1 : ℚ) + 1 =
        ((min cached.length (config.top_n_for_signals.getD 100) : ℕ) : ℚ) := by
      exact_mod_cast hkN
    have hkq : (k1 : ℚ) =
        ((min cached.length (config.top_n_for_signals.getD 100) : ℕ) : ℚ) - 1 := by
      linarith
    rw [hkq, mul_comm, div_mul_cancel₀ (mx - mn) (ne_of_gt hden)]
    have h1 : mn + (mx - mn) = mx := by ring
    rw [h1, min_self, max_eq_right hle]
  · intro hle
    rw [e1]
    exact ⟨le_max_left _ _, max_le hle (min_le_right _ _)⟩
  · intro hlt
    have hmn1 : _calculate_dynamic_value s1 conf fb config cached = mn := by
      rw [e1]
      exact max_eq_left (le_of_lt (lt_of_le_of_lt (min_le_right _ _) hlt))
    have hmn2 : _calculate_dynamic_value s2 conf fb config cached = mn := by
      rw [e2]
      exact max_eq_left (le_of_lt (lt_of_le_of_lt (min_le_right _ _) hlt))
    rw [hmn1, hmn2]
    exact ⟨rfl, le_rfl⟩

/-- Witness for C2: ranks 1 and 3 in a three-symbol cache with
`min = 2.5`, `max = 10`. -/
theorem C2_linear_monotone_endpoints_witness :
    ((5 / 2 : ℚ) ≤ 10 → 0 ≤ 2 →
      _calculate_dynamic_value "A"
          { enabled := true, min_multiplier := some (5 / 2), max_multiplier := some 10 }
          (3 / 2) {} ["A", "B", "C"] ≤
        _calculate_dynamic_value "C"
          { enabled := true, min_multiplier := some (5 / 2), max_multiplier := some 10 }
          (3 / 2) {} ["A", "B", "C"]) ∧
    (0 = 0 → (5 / 2 : ℚ) ≤ 10 →
      _calculate_dynamic_value "A"
          { enabled := true, min_multiplier := some (5 / 2), max_multiplier := some 10 }
          (3 / 2) {} ["A", "B", "C"] = 5 / 2) ∧
    (0 + 1 = min (["A", "B", "C"] : List String).length ((none : Option ℕ).getD 100) →
      (5 / 2 : ℚ) ≤ 10 →
      _calculate_dynamic_value "A"
          { enabled := true, min_multiplier := some (5 / 2), max_multiplier := some 10 }
          (3 / 2) {} ["A", "B", "C"] = 10) ∧
    ((5 / 2 : ℚ) ≤ 10 →
      (5 / 2 : ℚ) ≤ _calculate_dynamic_value "A"
          { enabled := true, min_multiplier := some (5 / 2), max_multiplier := some 10 }
          (3 / 2) {} ["A", "B", "C"] ∧
      _calculate_dynamic_value "A"
          { enabled := true, min_multiplier := some (5 / 2), max_multiplier := some 10 }
          (3 / 2) {} ["A", "B", "C"] ≤ 10) ∧
    ((10 : ℚ) < 5 / 2 →
      _calculate_dynamic_value "A"
          { enabled := true, min_multiplier := some (5 / 2), max_multiplier := some 10 }
          (3 / 2) {} ["A", "B", "C"] = 5 / 2 ∧
      _calculate_dynamic_value "C"
          { enabled := true, min_multiplier := some (5 / 2), max_multiplier := some 10 }
          (3 / 2) {} ["A", "B", "C"] ≤
        _calculate_dynamic_value "A"
          { enabled := true, min_multiplier := some (5 / 2), max_multiplier := some 10 }
          (3 / 2) {} ["A", "B", "C"]) :=
  C2_linear_monotone_endpoints
    { enabled := true, min_multiplier := some (5 / 2), max_multiplier := some 10 }
    {} (3 / 2) ["A", "B", "C"] "A" "C" 0 2 (5 / 2) 10 rfl rfl rfl rfl
    (by decide) (by decide) (by decide) (by decide) (by decide)

/-- Claim C3 (amended): the zone-merge post-process keeps no two zones whose
levels are strictly within the separation threshold of each other, and every
rejected input zone lies strictly within the threshold of some surviving zone
of greater-or-equal strength.  (The original claim — that of any two
threshold-close input zones the higher-strength one survives — fails; see the
counterexample.) -/
theorem C3_merge_close_levels (zones : List Zone) (min_sep : ℚ) :
    List.Pairwise (fun a b => min_sep ≤ |a.level - b.level|)
      (_merge_close_levels zones min_sep) ∧
    ∀ z ∈ zones, z ∉ _merge_close_levels zones min_sep →
      ∃ w ∈ _merge_close_levels zones min_sep,
        |z.level - w.level| < min_sep ∧ z.strength ≤ w.strength := by
  have hsymm : Symmetric (fun a b : Zone => min_sep ≤ |a.level - b.level|) := by
    intro a b h
    rwa [abs_sub_comm]
  have hpermS : List.Perm (sortDescBy (fun z : Zone => z.strength) zones) zones :=
    sortDescBy_perm _ zones
  have hpermF :
      List.Perm (_merge_close_levels zones min_sep)
        (greedyAccept min_sep [] (sortDescBy (fun z : Zone => z.strength) zones)) := by
    unfold _merge_close_levels
    exact sortDescBy_perm _ _
  constructor
  · exact (hpermF.pairwise_iff (fun {x y} h => hsymm h)).mpr
      (greedyAccept_sep_pairwise min_sep _ [] List.Pairwise.nil)
  · intro z hz hnz
    have hz2 : z ∈ sortDescBy (fun z : Zone => z.strength) zones := hpermS.mem_iff.mpr hz
    have hnz2 : z ∉ greedyAccept min_sep [] (sortDescBy (fun z : Zone => z.strength) zones) :=
      fun hmem => hnz (hpermF.mem_iff.mpr hmem)
    obtain ⟨w, hw, hclose, hstr⟩ :=
      greedyAccept_cover min_sep (sortDescBy (fun z : Zone => z.strength) zones) []
        (fun e he => absurd he (List.not_mem_nil e))
        (sortDescBy_pairwise _ zones) z hz2 hnz2
    exact ⟨w, hpermF.mem_iff.mpr hw, hclose, hstr⟩


unseal Rat.sub in
/-- Witness for C3 at zones `(100,5), (101,4), (102,3)` with threshold 2: the
rejected zone `(101,4)` is within the threshold of a surviving zone of
greater-or-equal strength, and the survivors are pairwise separated. -/
theorem C3_merge_close_levels_witness :
    List.Pairwise (fun a b => (2 : ℚ) ≤ |a.level - b.level|)
      (_merge_close_levels [⟨100, 5⟩, ⟨101, 4⟩, ⟨102, 3⟩] 2) ∧
    ∃ w ∈ _merge_close_levels [⟨100, 5⟩, ⟨101, 4⟩, ⟨102, 3⟩] 2,
      |(⟨101, 4⟩ : Zone).level - w.level| < 2 ∧ (⟨101, 4⟩ : Zone).strength ≤ w.strength :=
  ⟨(C3_merge_close_levels [⟨100, 5⟩, ⟨101, 4⟩, ⟨102, 3⟩] 2).1,
    (C3_merge_close_levels [⟨100, 5⟩, ⟨101, 4⟩, ⟨102, 3⟩] 2).2 ⟨101, 4⟩
      (by decide) (by decide)⟩

unseal Rat.sub in
/-- Counterexample to C3 as stated: zones `(100,5), (101,4), (102,3)` with
threshold 2 — zones `(101,4)` and `(102,3)` are within the threshold of each
other, yet the higher-strength one `(101,4)` is dropped while the weaker
`(102,3)` survives. -/
theorem C3_merge_close_levels_counterexample :
    (⟨101, 4⟩ : Zone) ∈ ([⟨100, 5⟩, ⟨101, 4⟩, ⟨102, 3⟩] : List Zone) ∧
    (⟨102, 3⟩ : Zone) ∈ ([⟨100, 5⟩, ⟨101, 4⟩, ⟨102, 3⟩] : List Zone) ∧
    |(101 : ℚ) - 102| < 2 ∧ (3 : ℕ) < 4 ∧
    (⟨101, 4⟩ : Zone) ∉ _merge_close_levels [⟨100, 5⟩, ⟨101, 4⟩, ⟨102, 3⟩] 2 ∧
    (⟨102, 3⟩ : Zone) ∈ _merge_close_levels [⟨100, 5⟩, ⟨101, 4⟩, ⟨102, 3⟩] 2 := by
  decide

/-- Claim C5 (amended): the engine returns the fallback when the family is
disabled; for a symbol absent from the ranked cache it returns the Python
truthiness chain `default_multiplier or default_count or fallback` (the
configured default, not the fallback, whenever a non-zero default exists);
for a symbol present in the cache whose rank exceeds the applied range —
`min(len(cached), top_n)` for the `linear`/`linear_stepped` methods,
`apply_to_rank_n` for every other method — it returns the configured default
value `dynDefaultVal` (either default key, falling back to the max bound). -/
theorem C5_dynamic_fallback_default
    (symbol : String) (conf : DynConf) (fb : ℚ) (config : Config) (cached : List String) :
    (conf.enabled = false → _calculate_dynamic_value symbol conf fb config cached = fb) ∧
    (conf.enabled = true → cached.indexOf? symbol = none →
      _calculate_dynamic_value symbol conf fb config cached =
        truthyOr conf.default_multiplier (truthyOr conf.default_count fb)) ∧
    (∀ k : ℕ, conf.enabled = true → cached.indexOf? symbol = some k →
      ((conf.method.getD "linear" = "linear" ∨ conf.method.getD "linear" = "linear_stepped") →
        min cached.length (config.top_n_for_signals.getD 100) < k + 1 →
        _calculate_dynamic_value symbol conf fb config cached = dynDefaultVal conf fb) ∧
      (¬ (conf.method.getD "linear" = "linear" ∨
          conf.method.getD "linear" = "linear_stepped") →
        conf.apply_to_rank_n.getD 100 < k + 1 →
        _calculate_dynamic_value symbol conf fb config cached = dynDefaultVal conf fb)) := by
  refine ⟨?_, ?_, ?_⟩
  · intro hen
    simp [_calculate_dynamic_value, hen]
  · intro hen hidx
    unfold _calculate_dynamic_value
    rw [hen, hidx]
    simp
  · intro k hen hidx
    constructor
    · intro hm hrange
      simp only [_calculate_dynamic_value, hen, hidx]
      rw [if_pos hm,
        if_pos (by omega : k + 1 > min cached.length (config.top_n_for_signals.getD 100))]
      rfl
    · intro hm hrange
      simp only [_calculate_dynamic_value, hen, hidx]
      rw [if_neg hm, if_pos (by omega : k + 1 > conf.apply_to_rank_n.getD 100)]
      rfl

/-- Witness for C5 (amended): with a configured truthy default of `3`, an
absent symbol yields that default through the truthiness chain; and under the
`stepped` method a symbol ranked beyond `apply_to_rank_n` yields the
configured default value. -/
theorem C5_dynamic_fallback_default_witness :
    (_calculate_dynamic_value "BBB"
        { enabled := true, default_multiplier := some 3, min_multiplier := some 1,
          max_multiplier := some 2 } (3 / 2) {} ["AAA"] =
      truthyOr (some 3) (truthyOr none (3 / 2))) ∧
    (_calculate_dynamic_value "C"
        { enabled := true, method := some "stepped", apply_to_rank_n := some 2,
          default_multiplier := some 7 } (3 / 2) {} ["A", "B", "C"] =
      dynDefaultVal
        { enabled := true, method := some "stepped", apply_to_rank_n := some 2,
          default_multiplier := some 7 } (3 / 2)) :=
  ⟨(C5_dynamic_fallback_default "BBB"
      { enabled := true, default_multiplier := some 3, min_multiplier := some 1,
        max_multiplier := some 2 } (3 / 2) {} ["AAA"]).2.1 rfl (by decide),
    ((C5_dynamic_fallback_default "C"
        { enabled := true, method := some "stepped", apply_to_rank_n := some 2,
          default_multiplier := some 7 } (3 / 2) {} ["A", "B", "C"]).2.2 2 rfl
      (by decide)).2 (by decide) (by decide)⟩

/-- Counterexample to C5 as stated: the family is enabled, the symbol is
absent from the ranked cache, yet the engine returns the configured default
`3`, not the fallback `2`. -/
theorem C5_absent_symbol_counterexample :
    _calculate_dynamic_value "BBB"
        { enabled := true, default_multiplier := some 3, min_multiplier := some 1,
          max_multiplier := some 2 } 2 {} ["AAA"] ≠ 2 := by
  decide

/-- Claim C6: with `align_to_period_end = true` and a positive parsed period,
`calculate_cooldown_time` returns, for intraday periods (< 1440 minutes),
`period_start + period` where `period_start` truncates the current UTC time
to the enclosing multiple-of-period boundary of the day, and, for periods of
a day or more, the next UTC midnight strictly after the current time (the
unique multiple of 86400 s in `(now, now + 86400]`); either way the expiry
lies strictly in the future. -/
theorem C6_cooldown_alignment (now : ℕ) (minutes : ℚ) (hpos : 0 < pyTrunc minutes) :
    ((pyTrunc minutes).toNat < 1440 →
      calculate_cooldown_time now minutes true =
        ((now / 86400 * 86400 +
          now % 86400 / 60 / (pyTrunc minutes).toNat * (pyTrunc minutes).toNat * 60 +
          (pyTrunc minutes).toNat * 60 : ℕ) : ℚ) ∧
      (now : ℚ) < calculate_cooldown_time now minutes true) ∧
    (1440 ≤ (pyTrunc minutes).toNat →
      calculate_cooldown_time now minutes true = (((now / 86400 + 1) * 86400 : ℕ) : ℚ) ∧
      (now : ℚ) < calculate_cooldown_time now minutes true ∧
      calculate_cooldown_time now minutes true ≤ (now : ℚ) + 86400) := by
  have hfut := cooldown_time_lt now minutes true
  constructor
  · intro hlt
    exact ⟨cooldown_align_intraday_eq now minutes hpos hlt, hfut⟩
  · intro hge
    refine ⟨cooldown_align_day_eq now minutes hpos hge, hfut, ?_⟩
    rw [cooldown_align_day_eq now minutes hpos hge]
    have h1 : (now / 86400 + 1) * 86400 ≤ now + 86400 := by
      have := Nat.div_mul_le_self now 86400
      omega
    push_cast
    exact_mod_cast h1

/-- Witness for C6 at `now = 3600` (01:00:00 UTC), `minutes = 15`. -/
theorem C6_cooldown_alignment_witness :
    0 < pyTrunc 15 ∧
    (((pyTrunc 15).toNat < 1440 →
      calculate_cooldown_time 3600 15 true =
        ((3600 / 86400 * 86400 +
          3600 % 86400 / 60 / (pyTrunc 15).toNat * (pyTrunc 15).toNat * 60 +
          (pyTrunc 15).toNat * 60 : ℕ) : ℚ) ∧
      ((3600 : ℕ) : ℚ) < calculate_cooldown_time 3600 15 true) ∧
    (1440 ≤ (pyTrunc 15).toNat →
      calculate_cooldown_time 3600 15 true = (((3600 / 86400 + 1) * 86400 : ℕ) : ℚ) ∧
      ((3600 : ℕ) : ℚ) < calculate_cooldown_time 3600 15 true ∧
      calculate_cooldown_time 3600 15 true ≤ ((3600 : ℕ) : ℚ) + 86400)) :=
  ⟨by decide, C6_cooldown_alignment 3600 15 (by decide)⟩

/-- Claim C9: `save_alert_states` prunes before writing — the persisted map
(equal to the in-memory map afterwards) holds exactly the entries of the
input map whose expiry lies strictly after the save time. -/
theorem C9_save_prunes_expired (m : List (String × ℚ)) (now : ℕ) (k : String) (e : ℚ) :
    (k, e) ∈ save_alert_states now m ↔ (k, e) ∈ m ∧ (now : ℚ) < e := by
  simp [save_alert_states, List.mem_filter]

/-- Claim C10: for a positive timeframe the elapsed-time fraction of
`is_realtime_volume_over` is clamped to `[0.05, 1]`, so the dynamic baseline
(`volume_ma · fraction`) stays between 5 % of the prior-bar volume moving
average and that full moving average; and the moving average itself is
nonnegative whenever the volumes are. -/
theorem C10_time_weighted_clamp (elapsed : ℚ) (tf : ℤ) (htf : 0 < tf) (vol_ma : ℚ)
    (hma : 0 ≤ vol_ma) :
    (1 / 20 ≤ realtimeTimeFrac elapsed tf ∧ realtimeTimeFrac elapsed tf ≤ 1) ∧
    (vol_ma * (1 / 20) ≤ vol_ma * realtimeTimeFrac elapsed tf ∧
      vol_ma * realtimeTimeFrac elapsed tf ≤ vol_ma) ∧
    (∀ (vols : List ℚ) (p : ℕ), (∀ v ∈ vols, 0 ≤ v) → 0 ≤ volumeMaLast vols p) := by
  have hlow : 1 / 20 ≤ realtimeTimeFrac elapsed tf := by
    simp only [realtimeTimeFrac, if_pos htf]
    exact le_min (le_max_right _ _) (by norm_num)
  have hhigh : realtimeTimeFrac elapsed tf ≤ 1 := by
    simp only [realtimeTimeFrac]
    exact min_le_right _ _
  refine ⟨⟨hlow, hhigh⟩, ⟨?_, ?_⟩, ?_⟩
  · exact mul_le_mul_of_nonneg_left hlow hma
  · calc vol_ma * realtimeTimeFrac elapsed tf ≤ vol_ma * 1 :=
        mul_le_mul_of_nonneg_left hhigh hma
    _ = vol_ma := mul_one vol_ma
  · intro vols p hv
    have hsum : 0 ≤ (((vols.drop (vols.length - 1 - p)).take p).sum) := by
      apply List.sum_nonneg
      intro x hx
      exact hv x (List.mem_of_mem_drop (List.mem_of_mem_take hx))
    exact div_nonneg hsum (by positivity)

/-- Witness for C10 at 30 minutes elapsed of a 60-minute bar. -/
theorem C10_time_weighted_clamp_witness :
    ((1 / 20 : ℚ) ≤ realtimeTimeFrac 30 60 ∧ realtimeTimeFrac 30 60 ≤ 1) ∧
    ((100 : ℚ) * (1 / 20) ≤ 100 * realtimeTimeFrac 30 60 ∧
      (100 : ℚ) * realtimeTimeFrac 30 60 ≤ 100) ∧
    (∀ (vols : List ℚ) (p : ℕ), (∀ v ∈ vols, 0 ≤ v) → 0 ≤ volumeMaLast vols p) :=
  C10_time_weighted_clamp 30 60 (by decide) 100 (by norm_num)

/-- Claim C1: for every alert key and candidate reaching the emission
pipeline — (1) a stored entry with expiry strictly after `now` suppresses the
candidate: nothing is sent, the store is untouched, nothing is persisted;
(2) with no entry, or an entry whose expiry has passed, a candidate that
clears the volume gate is sent, and the resulting (persisted) store holds a
new entry for the key with a strictly future expiry; (3) an alert can only
have fired when no entry existed or the stored expiry was not in the
future. -/
theorem C1_cooldown_gate_temporal (config : Config) (cached : List String) (symbol timeframe : String)
    (candles : List Candle) (si : SignalInfo) (now : ℕ) (store : List (String × ℚ)) :
    ((∃ e, dictGet store si.alert_key = some e ∧ (now : ℚ) < e) →
      (_prepare_and_send_notification config cached symbol timeframe candles si now store).sent
          = false ∧
      (_prepare_and_send_notification config cached symbol timeframe candles si now store).store
          = store ∧
      (_prepare_and_send_notification config cached symbol timeframe candles si now store).saved
          = none) ∧
    ((dictGet store si.alert_key = none ∨
        (∃ e, dictGet store si.alert_key = some e ∧ e ≤ (now : ℚ))) →
      (effectiveVolumeConfirm config symbol si = true →
        is_realtime_volume_over candles now (timeframe_to_minutes timeframe)
          (config.volume_ma_period.getD 20)
          (get_dynamic_volume_multiplier symbol config si.fallback_multiplier cached) = true) →
      (_prepare_and_send_notification config cached symbol timeframe candles si now store).sent
          = true ∧
      (∃ e, dictGet
          (_prepare_and_send_notification config cached symbol timeframe candles si now store).store
          si.alert_key = some e ∧ (now : ℚ) < e) ∧
      (_prepare_and_send_notification config cached symbol timeframe candles si now store).saved
        = some
          (_prepare_and_send_notification config cached symbol timeframe candles si now store).store) ∧
    ((_prepare_and_send_notification config cached symbol timeframe candles si now store).sent
        = true →
      dictGet store si.alert_key = none ∨
        (∃ e, dictGet store si.alert_key = some e ∧ e ≤ (now : ℚ))) := by
  cases hget : dictGet store si.alert_key with
  | none =>
    have hR : _prepare_and_send_notification config cached symbol timeframe candles si now store
        = prepareAfterCooldownGate config cached symbol (timeframe_to_minutes timeframe)
            candles si now store := by
      simp only [_prepare_and_send_notification, hget]
    refine ⟨?_, ?_, ?_⟩
    · rintro ⟨e, he, _⟩
      exact absurd he (by simp)
    · intro _ hgate
      rw [hR]
      exact prepareAfterCooldownGate_success config cached symbol _ candles si now store hgate
    · intro _
      exact Or.inl rfl
  | some e =>
    by_cases hlt : (now : ℚ) < e
    · have hR : _prepare_and_send_notification config cached symbol timeframe candles si now store
          = ⟨store, false, none⟩ := by
        simp only [_prepare_and_send_notification, hget]
        rw [if_pos hlt]
      refine ⟨?_, ?_, ?_⟩
      · intro _
        rw [hR]
        exact ⟨rfl, rfl, rfl⟩
      · rintro (hnone | ⟨e2, he2, hle2⟩) _
        · exact absurd hnone (by simp)
        · exfalso
          rw [Option.some_inj] at he2
          subst he2
          linarith
      · intro hsent
        rw [hR] at hsent
        exact absurd hsent (by simp)
    · have hR : _prepare_and_send_notification config cached symbol timeframe candles si now store
          = prepareAfterCooldownGate config cached symbol (timeframe_to_minutes timeframe)
              candles si now store := by
        simp only [_prepare_and_send_notification, hget]
        rw [if_neg hlt]
      refine ⟨?_, ?_, ?_⟩
      · rintro ⟨e2, he2, hlt2⟩
        exfalso
        rw [Option.some_inj] at he2
        subst he2
        exact hlt hlt2
      · intro _ hgate
        rw [hR]
        exact prepareAfterCooldownGate_success config cached symbol _ candles si now store hgate
      · intro _
        exact Or.inr ⟨e, rfl, not_lt.mp hlt⟩


/-- Witness for C1: a fresh key on an empty store is emitted and leaves a
future-expiry cooldown entry. -/
theorem C1_cooldown_gate_temporal_witness :
    (_prepare_and_send_notification {} [] "BTC/USDT" "1m" [] { alert_key := "K" } 0 []).sent
        = true ∧
    (∃ e, dictGet
        (_prepare_and_send_notification {} [] "BTC/USDT" "1m" [] { alert_key := "K" } 0 []).store
        (SignalInfo.alert_key { alert_key := "K" }) = some e ∧ ((0 : ℕ) : ℚ) < e) ∧
    (_prepare_and_send_notification {} [] "BTC/USDT" "1m" [] { alert_key := "K" } 0 []).saved
      = some
        (_prepare_and_send_notification {} [] "BTC/USDT" "1m" [] { alert_key := "K" } 0 []).store :=
  (C1_cooldown_gate_temporal {} [] "BTC/USDT" "1m" [] { alert_key := "K" } 0 []).2.1
    (Or.inl rfl) (by decide)

/-- Claim C7: a candidate whose effective volume-confirmation flag is on and
whose live time-weighted volume re-check fails is dropped: no alert is sent,
the cooldown store is returned unchanged, and nothing is persisted. -/
theorem C7_volume_recheck_drop (config : Config) (cached : List String) (symbol timeframe : String)
    (candles : List Candle) (si : SignalInfo) (now : ℕ) (store : List (String × ℚ))
    (hconf : effectiveVolumeConfirm config symbol si = true)
    (hvol : is_realtime_volume_over candles now (timeframe_to_minutes timeframe)
        (config.volume_ma_period.getD 20)
        (get_dynamic_volume_multiplier symbol config si.fallback_multiplier cached) = false) :
    (_prepare_and_send_notification config cached symbol timeframe candles si now store).sent
        = false ∧
    (_prepare_and_send_notification config cached symbol timeframe candles si now store).store
        = store ∧
    (_prepare_and_send_notification config cached symbol timeframe candles si now store).saved
        = none := by
  have hdrop := prepareAfterCooldownGate_drop config cached symbol
    (timeframe_to_minutes timeframe) candles si now store hconf hvol
  cases hget : dictGet store si.alert_key with
  | none =>
    have hR : _prepare_and_send_notification config cached symbol timeframe candles si now store
        = prepareAfterCooldownGate config cached symbol (timeframe_to_minutes timeframe)
            candles si now store := by
      simp only [_prepare_and_send_notification, hget]
    rw [hR, hdrop]
    exact ⟨rfl, rfl, rfl⟩
  | some e =>
    by_cases hlt : (now : ℚ) < e
    · have hR : _prepare_and_send_notification config cached symbol timeframe candles si now store
          = ⟨store, false, none⟩ := by
        simp only [_prepare_and_send_notification, hget]
        rw [if_pos hlt]
      rw [hR]
      exact ⟨rfl, rfl, rfl⟩
    · have hR : _prepare_and_send_notification config cached symbol timeframe candles si now store
          = prepareAfterCooldownGate config cached symbol (timeframe_to_minutes timeframe)
              candles si now store := by
        simp only [_prepare_and_send_notification, hget]
        rw [if_neg hlt]
      rw [hR, hdrop]
      exact ⟨rfl, rfl, rfl⟩


/-- Witness for C7: a volume-confirming candidate over an empty candle series
fails the re-check and is dropped without touching the store. -/
theorem C7_volume_recheck_drop_witness :
    (_prepare_and_send_notification {} [] "BTC/USDT" "1m" []
        { alert_key := "K", volume_must_confirm := true } 0 [("OLD", 5)]).sent = false ∧
    (_prepare_and_send_notification {} [] "BTC/USDT" "1m" []
        { alert_key := "K", volume_must_confirm := true } 0 [("OLD", 5)]).store
      = [("OLD", 5)] ∧
    (_prepare_and_send_notification {} [] "BTC/USDT" "1m" []
        { alert_key := "K", volume_must_confirm := true } 0 [("OLD", 5)]).saved = none :=
  C7_volume_recheck_drop {} [] "BTC/USDT" "1m" []
    { alert_key := "K", volume_must_confirm := true } 0 [("OLD", 5)] (by decide) (by decide)


theorem expand_zone_min_height (top bottom a : ℚ) :
    a * (1 / 2) ≤ (expand_zone_if_needed top bottom a).1 - (expand_zone_if_needed top bottom a).2 := by
  simp only [expand_zone_if_needed]
  split_ifs with h
  · simp only []
    linarith
  · simp only []
    linarith [not_lt.mp h]

theorem expand_zone_thin (top bottom a : ℚ) (h : top - bottom < a * (1 / 2)) :
    (expand_zone_if_needed top bottom a).1 - (expand_zone_if_needed top bottom a).2 = a * (1 / 2) ∧
    (expand_zone_if_needed top bottom a).1 + (expand_zone_if_needed top bottom a).2 = top + bottom := by
  simp only [expand_zone_if_needed]
  rw [if_pos h]
  constructor <;> ring

theorem candle_getD_valid (candles : List Candle) (h : ∀ c ∈ candles, c.low ≤ c.high) (i : ℕ) :
    (candles.getD i default).low ≤ (candles.getD i default).high := by
  by_cases hi : i < candles.length
  · rw [List.getD_eq_getElem?_getD, List.getElem?_eq_getElem hi]
    exact h _ (List.getElem_mem _)
  · rw [List.getD_eq_getElem?_getD, List.getElem?_eq_none (le_of_not_lt hi)]
    exact le_refl 0

theorem trueRange_nonneg (candles : List Candle) (h : ∀ c ∈ candles, c.low ≤ c.high) (i : ℕ) :
    0 ≤ trueRange candles i := by
  cases i with
  | zero =>
    have h0 := candle_getD_valid candles h 0
    show 0 ≤ (candles.getD 0 default).high - (candles.getD 0 default).low
    linarith
  | succ j =>
    show 0 ≤ max ((candles.getD (j + 1) default).high - (candles.getD (j + 1) default).low)
      (max |(candles.getD (j + 1) default).high - (candles.getD j default).close|
        |(candles.getD (j + 1) default).low - (candles.getD j default).close|)
    exact le_trans (abs_nonneg _) (le_trans (le_max_left _ _) (le_max_right _ _))

theorem ewmNum_nonneg (f : ℕ → ℚ) (w : ℚ) (hf : ∀ i, 0 ≤ f i) (hw : 0 ≤ w) (i : ℕ) :
    0 ≤ ewmNum f w i := by
  induction i with
  | zero => exact hf 0
  | succ j ih => exact add_nonneg (mul_nonneg hw ih) (hf (j + 1))

theorem geomSum_pos (w : ℚ) (hw : 0 ≤ w) (i : ℕ) : 0 < geomSum w i := by
  induction i with
  | zero => norm_num [geomSum]
  | succ j ih =>
    rw [geomSum]
    exact add_pos_of_nonneg_of_pos (mul_nonneg hw ih.le) one_pos

theorem atrAt_nonneg (candles : List Candle) (L : ℕ) (hL : 1 ≤ L)
    (h : ∀ c ∈ candles, c.low ≤ c.high) :
    ∀ i a, atrAt candles L i = some a → 0 ≤ a := by
  intro i a ha
  unfold atrAt at ha
  split_ifs at ha with hi
  have hw : (0 : ℚ) ≤ 1 - 1 / (L : ℚ) := by
    rw [sub_nonneg]
    rw [div_le_one (by exact_mod_cast Nat.lt_of_lt_of_le Nat.zero_lt_one hL)]
    exact_mod_cast hL
  rw [Option.some_inj] at ha
  subst ha
  exact div_nonneg
    (ewmNum_nonneg _ _ (trueRange_nonneg candles h) hw i)
    (geomSum_pos _ hw i).le

theorem searchBearishOB_spec (candles : List Candle) (atrF : ℕ → Option ℚ) (mult : ℚ) :
    ∀ (idxs : List ℕ) (b : OrderBlock), searchBearishOB candles atrF mult idxs = some b →
      ∃ i a, i ∈ idxs ∧ atrF i = some a ∧ a * (1 / 2) ≤ b.top - b.bottom := by
  intro idxs
  induction idxs with
  | nil => intro b hb; simp [searchBearishOB] at hb
  | cons idx rest ih =>
    intro b hb
    simp only [searchBearishOB] at hb
    split_ifs at hb with h1
    · obtain ⟨i, a, hmem, ha, hth⟩ := ih b hb
      exact ⟨i, a, List.mem_cons_of_mem idx hmem, ha, hth⟩
    · cases hatr : atrF idx with
      | none =>
        simp only [hatr] at hb
        obtain ⟨i, a, hmem, ha, hth⟩ := ih b hb
        exact ⟨i, a, List.mem_cons_of_mem idx hmem, ha, hth⟩
      | some a =>
        simp only [hatr] at hb
        split_ifs at hb with h0
        · obtain ⟨i, a2, hmem, ha2, hth⟩ := ih b hb
          exact ⟨i, a2, List.mem_cons_of_mem idx hmem, ha2, hth⟩
        · cases hbr : findBreakBelow candles (idx + 1)
            ((candles.getD idx default).low - a * mult) with
          | none =>
            simp only [hbr] at hb
            obtain ⟨i, a2, hmem, ha2, hth⟩ := ih b hb
            exact ⟨i, a2, List.mem_cons_of_mem idx hmem, ha2, hth⟩
          | some break_idx =>
            simp only [hbr] at hb
            cases hlu : lastUpCandleIdx candles idx break_idx with
            | none =>
              simp only [hlu] at hb
              obtain ⟨i, a2, hmem, ha2, hth⟩ := ih b hb
              exact ⟨i, a2, List.mem_cons_of_mem idx hmem, ha2, hth⟩
            | some ob_idx =>
              simp only [hlu, Option.some_inj] at hb
              refine ⟨idx, a, List.mem_cons_self _ _, hatr, ?_⟩
              rw [← hb]
              exact expand_zone_min_height _ _ a

theorem searchBullishOB_spec (candles : List Candle) (atrF : ℕ → Option ℚ) (mult : ℚ) :
    ∀ (idxs : List ℕ) (b : OrderBlock), searchBullishOB candles atrF mult idxs = some b →
      ∃ i a, i ∈ idxs ∧ atrF i = some a ∧ a * (1 / 2) ≤ b.top - b.bottom := by
  intro idxs
  induction idxs with
  | nil => intro b hb; simp [searchBullishOB] at hb
  | cons idx rest ih =>
    intro b hb
    simp only [searchBullishOB] at hb
    split_ifs at hb with h1
    · obtain ⟨i, a, hmem, ha, hth⟩ := ih b hb
      exact ⟨i, a, List.mem_cons_of_mem idx hmem, ha, hth⟩
    · cases hatr : atrF idx with
      | none =>
        simp only [hatr] at hb
        obtain ⟨i, a, hmem, ha, hth⟩ := ih b hb
        exact ⟨i, a, List.mem_cons_of_mem idx hmem, ha, hth⟩
      | some a =>
        simp only [hatr] at hb
        split_ifs at hb with h0
        · obtain ⟨i, a2, hmem, ha2, hth⟩ := ih b hb
          exact ⟨i, a2, List.mem_cons_of_mem idx hmem, ha2, hth⟩
        · cases hbr : findBreakAbove candles (idx + 1)
            ((candles.getD idx default).high + a * mult) with
          | none =>
            simp only [hbr] at hb
            obtain ⟨i, a2, hmem, ha2, hth⟩ := ih b hb
            exact ⟨i, a2, List.mem_cons_of_mem idx hmem, ha2, hth⟩
          | some break_idx =>
            simp only [hbr] at hb
            cases hlu : lastDownCandleIdx candles idx break_idx with
            | none =>
              simp only [hlu] at hb
              obtain ⟨i, a2, hmem, ha2, hth⟩ := ih b hb
              exact ⟨i, a2, List.mem_cons_of_mem idx hmem, ha2, hth⟩
            | some ob_idx =>
              simp only [hlu, Option.some_inj] at hb
              refine ⟨idx, a, List.mem_cons_self _ _, hatr, ?_⟩
              rw [← hb]
              exact expand_zone_min_height _ _ a

/-- Claim C4: every order block returned by `find_latest_order_blocks`
(bullish or bearish) has height at least `0.5 ×` the (nonnegative) ATR at the
swing that produced it, and a candidate zone thinner than that bound is
expanded symmetrically about its midpoint to exactly the minimum height. -/
theorem C4_order_block_thickness (candles : List Candle) (swing_length : ℕ) (atr_multiplier : ℚ)
    (hvalid : ∀ c ∈ candles, c.low ≤ c.high) :
    (∀ b, (find_latest_order_blocks candles swing_length atr_multiplier).1 = some b →
      ∃ i a, i ∈ find_peaks (candles.map (·.high)) swing_length ∧
        atrAt candles 14 i = some a ∧ 0 ≤ a ∧ a * (1 / 2) ≤ b.top - b.bottom) ∧
    (∀ b, (find_latest_order_blocks candles swing_length atr_multiplier).2 = some b →
      ∃ i a, i ∈ find_peaks ((candles.map (·.low)).map Neg.neg) swing_length ∧
        atrAt candles 14 i = some a ∧ 0 ≤ a ∧ a * (1 / 2) ≤ b.top - b.bottom) ∧
    (∀ top bottom a, top - bottom < a * (1 / 2) →
      (expand_zone_if_needed top bottom a).1 - (expand_zone_if_needed top bottom a).2
          = a * (1 / 2) ∧
      (expand_zone_if_needed top bottom a).1 + (expand_zone_if_needed top bottom a).2
          = top + bottom) := by
  refine ⟨?_, ?_, fun top bottom a h => expand_zone_thin top bottom a h⟩
  · intro b hb
    by_cases hlen : candles.length < swing_length * 2 + 2
    · simp [find_latest_order_blocks, hlen] at hb
    · simp only [find_latest_order_blocks, if_neg hlen] at hb
      obtain ⟨i, a, hmem, ha, hth⟩ :=
        searchBullishOB_spec candles (atrAt candles 14) atr_multiplier _ b hb
      exact ⟨i, a, List.mem_reverse.mp hmem, ha,
        atrAt_nonneg candles 14 (by norm_num) hvalid i a ha, hth⟩
  · intro b hb
    by_cases hlen : candles.length < swing_length * 2 + 2
    · simp [find_latest_order_blocks, hlen] at hb
    · simp only [find_latest_order_blocks, if_neg hlen] at hb
      obtain ⟨i, a, hmem, ha, hth⟩ :=
        searchBearishOB_spec candles (atrAt candles 14) atr_multiplier _ b hb
      exact ⟨i, a, List.mem_reverse.mp hmem, ha,
        atrAt_nonneg candles 14 (by norm_num) hvalid i a ha, hth⟩

/-- Witness for C4: the expansion of the thin zone `[0, 1]` under ATR 4 has
exactly the minimum height `2` and keeps its midpoint. -/
theorem C4_order_block_thickness_witness :
    (expand_zone_if_needed 1 0 4).1 - (expand_zone_if_needed 1 0 4).2 = 4 * (1 / 2) ∧
    (expand_zone_if_needed 1 0 4).1 + (expand_zone_if_needed 1 0 4).2 = 1 + 0 :=
  (C4_order_block_thickness [] 2 (1 / 10) (fun c hc => absurd hc (List.not_mem_nil c))).2.2
    1 0 4 (by norm_num)

/-- Claim C8: when a valid trend segment exists (window long enough, segment
at least the minimum trend length), the regression-channel detector returns
`none` whenever the fitted slope magnitude is below the noise threshold
`mean close × 0.0005`, and whenever the slope's sign contradicts the polarity
chosen by the window extremum (up-trend with nonpositive slope or down-trend
with nonnegative slope). -/
theorem C8_regression_channel_guards (candles : List Candle) (lookback min_len : ℕ) (mult : ℚ)
    (hlen : ¬ candles.length < lookback)
    (hseg : ¬ (channelSegment candles lookback).1.length < min_len) :
    (|olsSlope ((channelSegment candles lookback).1.map (·.close))| <
        meanClose (channelSegment candles lookback).1 * (5 / 10000) →
      detect_regression_channel candles lookback min_len mult = none) ∧
    (((channelSegment candles lookback).2 ∧
        olsSlope ((channelSegment candles lookback).1.map (·.close)) ≤ 0) ∨
      (¬ (channelSegment candles lookback).2 ∧
        0 ≤ olsSlope ((channelSegment candles lookback).1.map (·.close))) →
      detect_regression_channel candles lookback min_len mult = none) := by
  constructor
  · intro hnoise
    simp only [detect_regression_channel]
    rw [if_neg hlen, if_neg hseg, if_pos hnoise]
  · intro hpol
    simp only [detect_regression_channel]
    rw [if_neg hlen, if_neg hseg]
    by_cases hnoise : |olsSlope ((channelSegment candles lookback).1.map (·.close))| <
        meanClose (channelSegment candles lookback).1 * (5 / 10000)
    · rw [if_pos hnoise]
    · rw [if_neg hnoise, if_pos hpol]

set_option maxRecDepth 8000 in
unseal Rat.add Rat.sub Rat.mul Rat.inv in
/-- Witness for C8: a flat ten-candle series — zero slope falls below the
noise threshold, so no channel is reported. -/
theorem C8_regression_channel_guards_witness :
    detect_regression_channel
      ((List.range 10).map (fun i => (⟨(i : ℤ), 10, 12, 9, 10, 100⟩ : Candle))) 10 5 2 = none :=
  (C8_regression_channel_guards ((List.range 10).map (fun i => (⟨(i : ℤ), 10, 12, 9, 10, 100⟩ : Candle))) 10 5 2
    (by decide) (by decide)).1 (by decide)

end Monitor
